import Mathlib

/-!
Verification of the thoth tool-invocation orchestrator and its tools.

This file shallowly embeds the Go sources of the repository:
  * `main.go` — the orchestrator turn loop (`toolCallLoop`): separating a model
    response's parts into function calls and text, dispatching calls through the
    tool registry, and batching the resulting tool responses;
  * `tools/run_shell_command.go` — `RunShellCommandTool.Execute`, the process
    executor (spawn, cancellation race, exit-status decoding, result map);
  * `tools/read_many_files.go` — `ReadManyFilesTool.Execute`, the multi-file
    reader (glob expansion, deduplication, per-file degradation to markers).

External collaborators (the genai model client, the operating system: process
spawning, `syscall.Getpgid`, `filepath.Glob`, `os.Stat`, `os.ReadFile`,
context cancellation) are modelled as explicit environment records threaded
through the embedded functions; the embedded code consumes them exactly where
the Go code performs the corresponding call.  Platform wait-status decoding
(`syscall.WaitStatus` on Linux) is embedded from the Go standard library since
the executor's decoding dispatches on it.
-/

set_option autoImplicit false

namespace Thoth

/-- A dynamically typed JSON-like value, the type of `any` at the model/tool
boundary (`map[string]any` arguments and results in the Go code). -/
inductive JVal where
  | str : String → JVal
  | num : Int → JVal
  | bool : Bool → JVal
  | arr : List JVal → JVal
  | obj : List (String × JVal) → JVal
  | null : JVal
  deriving Repr

/-- Go `%v` rendering of a `JVal`, used by error messages such as
`fmt.Errorf("invalid path pattern: %v", p)`.  Only the cases exercised by the
claims need to coincide with Go's formatting. -/
def JVal.render : JVal → String
  | .str s => s
  | .num n => toString n
  | .bool b => toString b
  | .arr _ => "[...]"
  | .obj _ => "map[...]"
  | .null => "<nil>"

/-- Lookup in a `map[string]any` modelled as an association list. -/
def lookupJ (m : List (String × JVal)) (k : String) : Option JVal :=
  match m with
  | [] => none
  | (k', v) :: rest => if k' = k then some v else lookupJ rest k

/-- The Go type assertion `args[k].(string)`: present and a string. -/
def lookupStr (m : List (String × JVal)) (k : String) : Option String :=
  match lookupJ m k with
  | some (.str s) => some s
  | _ => none

/-- The Go type assertion `args[k].([]any)`: present and an array. -/
def lookupArr (m : List (String × JVal)) (k : String) : Option (List JVal) :=
  match lookupJ m k with
  | some (.arr l) => some l
  | _ => none

/-- `genai.FunctionCall`: tool name plus argument map. -/
structure FunctionCall where
  name : String
  args : List (String × JVal)
  deriving Repr

/-- `genai.FunctionResponse`: tool name plus response map. -/
structure FunctionResponse where
  name : String
  response : List (String × JVal)
  deriving Repr

/-- `genai.Part`: in the Go struct, `Text` is a plain string (empty means no
text) while `FunctionCall` and `FunctionResponse` are nullable pointers. -/
structure Part where
  text : String
  functionCall : Option FunctionCall
  functionResponse : Option FunctionResponse
  deriving Repr

/-- A part holding exactly one function call, as the model client produces. -/
def Part.ofCall (c : FunctionCall) : Part :=
  { text := "", functionCall := some c, functionResponse := none }

/-- A part holding plain text. -/
def Part.ofText (s : String) : Part :=
  { text := s, functionCall := none, functionResponse := none }

/-- `genai.Content`: an ordered list of parts. -/
structure Content where
  parts : List Part
  deriving Repr

/-- `genai.Candidate`: `Content` is a nullable pointer in Go. -/
structure Candidate where
  content : Option Content
  deriving Repr

/-- `genai.GenerateContentResponse`: the candidate list. -/
structure Response where
  candidates : List Candidate
  deriving Repr

/-- The `tools.Tool` interface: a declaration and an execution function.  For
the orchestrator `Execute` is an opaque function from arguments to either a
result map or an error message (the two Go return values, exactly one
meaningful). -/
structure Tool where
  declarationName : String
  execute : List (String × JVal) → Except String (List (String × JVal))

/-- The tool registry `map[string]tools.Tool`, modelled as an association
list; `toolRegistry[call.Name]` is `lookupTool`. -/
def Registry := List (String × Tool)

/-- Map lookup `toolRegistry[name]`. -/
def lookupTool (reg : Registry) (name : String) : Option Tool :=
  match reg with
  | [] => none
  | (k, t) :: rest => if k = name then some t else lookupTool rest name

/-- The tool-response part the orchestrator appends when `toolErr != nil`:
`genai.Part{FunctionResponse: &genai.FunctionResponse{Name: call.Name,
Response: map[string]any{"error": toolErr.Error()}}}`. -/
def errorResponsePart (name msg : String) : Part :=
  { text := "", functionCall := none,
    functionResponse := some { name := name, response := [("error", .str msg)] } }

/-- The tool-response part appended on success: the tool's result map wrapped
in a `FunctionResponse` under the call's name. -/
def successResponsePart (name : String) (res : List (String × JVal)) : Part :=
  { text := "", functionCall := none,
    functionResponse := some { name := name, response := res } }

/-- One dispatch of a function call (main.go lines 162-185): look the name up
in the registry; if found run `Execute` and wrap its outcome, otherwise
synthesize the `unknown tool` error without executing anything.  The second
component records which registered tools had `Execute` invoked. -/
def dispatchCall (reg : Registry) (call : FunctionCall) : Part × List String :=
  match lookupTool reg call.name with
  | some tool =>
    match tool.execute call.args with
    | .ok res => (successResponsePart call.name res, [call.name])
    | .error e => (errorResponsePart call.name e, [call.name])
  | none => (errorResponsePart call.name ("unknown tool: " ++ call.name), [])

/-- The orchestrator's per-response accumulator: `toolResponses`,
`modelTextResponse`, and the trace of executed tool names. -/
structure OState where
  toolResponses : List Part
  modelTextResponse : String
  executed : List String
  deriving Repr

def OState.init : OState :=
  { toolResponses := [], modelTextResponse := "", executed := [] }

/-- Processing of a single content part (main.go lines 154-188):
`if part.FunctionCall != nil { dispatch } else if part.Text != "" { accumulate }`. -/
def processPart (reg : Registry) (st : OState) (part : Part) : OState :=
  match part.functionCall with
  | some call =>
    let d := dispatchCall reg call
    { st with toolResponses := st.toolResponses ++ [d.1],
              executed := st.executed ++ d.2 }
  | none =>
    if part.text ≠ "" then
      { st with modelTextResponse := st.modelTextResponse ++ part.text }
    else st

/-- Processing of one candidate (main.go lines 150-153): candidates whose
`Content` pointer is nil are skipped; otherwise every part is processed. -/
def processCandidate (reg : Registry) (st : OState) (cand : Candidate) : OState :=
  match cand.content with
  | none => st
  | some c => c.parts.foldl (processPart reg) st

/-- Processing of a whole response: the Go loop ranges over **all**
candidates (`for _, cand := range resp.Candidates`). -/
def processResponse (reg : Registry) (resp : Response) : OState :=
  resp.candidates.foldl (processCandidate reg) OState.init

/-- What one iteration of `toolCallLoop` does with a response after
processing it (main.go lines 142-204): no candidates prints the notice and
breaks; a non-empty tool-response batch is sent back to the model in one
`SendMessage` call; otherwise the accumulated text is emitted and the loop
breaks. -/
inductive TurnAction where
  | noCandidates : TurnAction
  | sendBatch : List Part → TurnAction
  | emitText : String → TurnAction
  deriving Repr

/-- One iteration of the loop body.  The Go conditions are
`len(resp.Candidates) == 0` and `len(toolResponses) > 0`. -/
def stepTurn (reg : Registry) (resp : Response) : TurnAction :=
  if resp.candidates.length = 0 then .noCandidates
  else
    let st := processResponse reg resp
    if 0 < st.toolResponses.length then .sendBatch st.toolResponses
    else .emitText st.modelTextResponse

/-- All function-call parts of a response, across all candidates with
non-nil content, in encounter order. -/
def functionCalls (resp : Response) : List FunctionCall :=
  ((resp.candidates.filterMap Candidate.content).flatMap Content.parts).filterMap
    Part.functionCall

/-!
## Process executor (`tools/run_shell_command.go`, `RunShellCommandTool.Execute`)
-/

/-- Linux wait-status predicate `syscall.WaitStatus.Exited`:
`w & 0x7F == 0`. -/
def wsExited (w : Nat) : Bool := w &&& 0x7F == 0

/-- `syscall.WaitStatus.ExitStatus`: `-1` unless the process exited, else
`(w >> 8) & 0xFF`. -/
def wsExitStatus (w : Nat) : Int :=
  if wsExited w then ((w >>> 8) &&& 0xFF : Nat) else -1

/-- `syscall.WaitStatus.Signaled`: `w & 0x7F` is neither the exited marker
`0x00` nor the stopped marker `0x7F`. -/
def wsSignaled (w : Nat) : Bool :=
  (w &&& 0x7F) != 0x7F && (w &&& 0x7F) != 0x00

/-- `syscall.WaitStatus.Signal`: `-1` unless signaled, else `w & 0x7F`. -/
def wsSignal (w : Nat) : Int :=
  if wsSignaled w then (w &&& 0x7F : Nat) else -1

/-- The message of `(*exec.ExitError).Error()` (Go standard library,
`os.ProcessState.String`), abstracted: the claims only depend on it being
attached verbatim on the `ExitError` path, never on its exact text.  Signal
names are rendered by number rather than by the platform name table. -/
def exitErrorString (w : Nat) : String :=
  if wsExited w then "exit status " ++ toString (wsExitStatus w)
  else if wsSignaled w then "signal: " ++ toString (wsSignal w)
  else "wait status " ++ toString w

/-- Outcome the executor's `cmd.Wait()` goroutine delivers on the `done`
channel: `nil` (clean, exit status 0), an `*exec.ExitError` carrying the raw
platform wait status (its `Sys()` is a `syscall.WaitStatus` on Linux), or a
different error with a message. -/
inductive WaitOutcome where
  | ok : WaitOutcome
  | exitError : Nat → WaitOutcome
  | otherError : String → WaitOutcome
  deriving Repr

/-- Environment for one `Execute` run: everything the surrounding operating
system decides.  `raceCancelled` is the winner of the `select` between
`ctx.Done()` and the `done` channel; `getpgid` is the result of
`syscall.Getpgid(cmd.Process.Pid)` (the same in both places it is queried);
`stdout`/`stderr` are the buffer contents once the run resolves. -/
structure ProcEnv where
  startErr : Option String
  raceCancelled : Bool
  cancelMsg : String
  getpgid : Option Int
  wait : WaitOutcome
  stdout : String
  stderr : String

/-- Observable systems actions of one `Execute` run, in order. -/
inductive ProcEvent where
  | startProcess : String → String → ProcEvent
  | killGroup : Int → Int → ProcEvent
  | joinWait : ProcEvent
  deriving Repr, DecidableEq

def SIGTERM : Int := 15

/-- `filepath.Join(root, dir)` — Go standard library, abstracted to plain
separator concatenation (no claim depends on path cleaning). -/
def joinPath (root dir : String) : String := root ++ "/" ++ dir

/-- Decoding of the wait outcome (run_shell_command.go lines 90-119): the
three mutable locals start as `exitCode = -1`, `signal = -1`,
`cmdErr = "(none)"`; the `ExitError` branch stores `exitError.Error()`, sets
`exitCode = status.ExitStatus()` and overwrites `signal` only when
`status.Signaled()`; a non-`ExitError` stores only its message; a nil error
sets `exitCode = 0`. -/
def decodeWait : WaitOutcome → Int × Int × String
  | .ok => (0, -1, "(none)")
  | .exitError w =>
    (wsExitStatus w, if wsSignaled w then wsSignal w else -1, exitErrorString w)
  | .otherError msg => (-1, -1, msg)

/-- The working directory `cmd.Dir` (run_shell_command.go lines 66-70):
`directory` joined under the project root when given and non-empty,
otherwise the project root itself. -/
def resolvedWorkDir (projectRoot : String) (args : List (String × JVal)) : String :=
  let dir := (lookupStr args "directory").getD ""
  if dir ≠ "" then joinPath projectRoot dir else projectRoot

/-- `RunShellCommandTool.Execute`.  Returns the Go pair `(result, error)` as
an `Except`, together with the trace of systems events. -/
def runShellExecute (projectRoot : String) (env : ProcEnv)
    (args : List (String × JVal)) :
    Except String (List (String × JVal)) × List ProcEvent :=
  match lookupStr args "command" with
  | none => (.error "missing or invalid 'command' argument", [])
  | some cmdStr =>
    let dir := (lookupStr args "directory").getD ""
    let workDir := resolvedWorkDir projectRoot args
    match env.startErr with
    | some e => (.error ("failed to start command: " ++ e), [])
    | none =>
      if env.raceCancelled then
        let kills :=
          match env.getpgid with
          | some pgid => [ProcEvent.killGroup (-pgid) SIGTERM]
          | none => []
        (.error env.cancelMsg,
          [ProcEvent.startProcess cmdStr workDir] ++ kills ++ [ProcEvent.joinWait])
      else
        let d := decodeWait env.wait
        let pgid := env.getpgid.getD (-1)
        (.ok [("Command", .str cmdStr),
              ("Directory", .str dir),
              ("Stdout", .str env.stdout),
              ("Stderr", .str env.stderr),
              ("Error", .str d.2.2),
              ("Exit Code", .num d.1),
              ("Signal", .num d.2.1),
              ("Background PIDs", .arr []),
              ("Process Group PGID", .num pgid)],
          [ProcEvent.startProcess cmdStr workDir, ProcEvent.joinWait])

/-- Modelled from the spec: the observable behavior of `bash -c "echo hello"`
under the operating system (the shell itself is external to the repository) —
the process exits cleanly with `hello\n` on stdout and nothing on stderr
(§8: "running `echo hello` returns exit code 0, signal sentinel, stdout
containing `hello\n`, stderr empty, error `(none)`"). -/
def echoHelloEnv : ProcEnv :=
  { startErr := none, raceCancelled := false, cancelMsg := "",
    getpgid := some 4242, wait := .ok, stdout := "hello\n", stderr := "" }

/-!
## Multi-file reader (`tools/read_many_files.go`, `ReadManyFilesTool.Execute`)
-/

/-- Result of `os.Stat`: missing (`os.IsNotExist`), another stat error, a
directory, or a regular file. -/
inductive StatResult where
  | notExist : StatResult
  | statError : String → StatResult
  | dir : StatResult
  | file : StatResult
  deriving Repr, DecidableEq

/-- Filesystem / standard-library environment for one reader run.  `glob`
models `filepath.Glob` (`.error` is Go's `ErrBadPattern` message);
`readFile` models `os.ReadFile` with file bytes rendered as the string
`string(data)`; `doneAt i` tells whether `ctx.Done()` is already closed when
the loop reaches its `i`-th unique path; `cancelMsg` is `ctx.Err()`. -/
structure FSEnv where
  glob : String → Except String (List String)
  stat : String → StatResult
  readFile : String → Except String String
  doneAt : Nat → Bool
  cancelMsg : String

/-- `strings.ContainsAny(pattern, "*?[]")`, expressed over the string's
character list. -/
def containsGlobMeta (s : String) : Bool :=
  s.data.any (fun c => c == '*' || c == '?' || c == '[' || c == ']')

/-- `bytes.ContainsRune(data, 0)`: rune 0 is the single byte `0x00`, so this
is exactly the presence of a null character in the content. -/
def containsNullByte (data : String) : Bool :=
  data.data.any (fun c => c == Char.ofNat 0)

/-- Expansion of the `paths` argument (read_many_files.go lines 215-233):
each entry must be a string; entries with glob metacharacters are expanded
via `filepath.Glob` on the root-joined pattern (a glob error aborts the
call); literal entries are kept as the joined path. -/
def expandPaths (projectRoot : String) (fs : FSEnv) :
    List JVal → Except String (List String)
  | [] => .ok []
  | p :: rest =>
    match p with
    | .str pattern =>
      let absPattern := joinPath projectRoot pattern
      if containsGlobMeta pattern then
        match fs.glob absPattern with
        | .error e =>
          .error ("error globbing pattern " ++ pattern ++ ": " ++ e)
        | .ok ms =>
          (expandPaths projectRoot fs rest).map (fun l => ms ++ l)
      else
        (expandPaths projectRoot fs rest).map (fun l => absPattern :: l)
    | other => .error ("invalid path pattern: " ++ other.render)

/-- Deduplication preserving first-seen order (the `seen` map, lines
235-243). -/
def dedupAux (seen : List String) : List String → List String
  | [] => []
  | p :: rest =>
    if p ∈ seen then dedupAux seen rest
    else p :: dedupAux (p :: seen) rest

def dedup (l : List String) : List String := dedupAux [] l

/-- The marker or content chunk produced for one unique path (lines
253-278). -/
def fileChunk (fs : FSEnv) (filePath : String) : String :=
  match fs.stat filePath with
  | .notExist => "---" ++ filePath ++ " (Not Found)---\n"
  | .statError e => "---" ++ filePath ++ " (Error: " ++ e ++ ")---\n"
  | .dir => "---" ++ filePath ++ " (Directory)---\n"
  | .file =>
    match fs.readFile filePath with
    | .error e => "---" ++ filePath ++ " (Error reading: " ++ e ++ ")---\n"
    | .ok data =>
      if containsNullByte data then
        "---" ++ filePath ++ " (Binary File, content not included)---\n"
      else
        "---" ++ filePath ++ " --- " ++ data ++ "\n"

/-- The per-path loop (lines 246-279): before each item the `select` polls
`ctx.Done()` and aborts with `ctx.Err()` if it is closed, otherwise the
chunk is appended to the builder. -/
def processFiles (fs : FSEnv) : List String → Nat → Except String String
  | [], _ => .ok ""
  | fp :: rest, i =>
    if fs.doneAt i then .error fs.cancelMsg
    else (processFiles fs rest (i + 1)).map (fun s => fileChunk fs fp ++ s)

/-- `ReadManyFilesTool.Execute`: validate `paths`, expand, deduplicate,
process each unique path, and wrap the concatenation as
`{"content": ...}`. -/
def readManyExecute (projectRoot : String) (fs : FSEnv)
    (args : List (String × JVal)) :
    Except String (List (String × JVal)) :=
  match lookupArr args "paths" with
  | none => .error "missing or invalid 'paths' argument"
  | some paths =>
    match expandPaths projectRoot fs paths with
    | .error e => .error e
    | .ok filePaths =>
      match processFiles fs (dedup filePaths) 0 with
      | .error e => .error e
      | .ok content => .ok [("content", .str content)]

/-!
## Startup wiring (`main.go` lines 102-114)
-/

/-- `toolRegistry := make(map[string]tools.Tool)` — built once at startup;
no insertion into it appears anywhere in `main.go`. -/
def mainToolRegistry : Registry := []

/-- The `functionDeclarations` slice: one declaration per registered tool
(declarations abstracted to their names, which is all the wiring uses). -/
def mainFunctionDeclarations : List String :=
  mainToolRegistry.map (fun kv => kv.2.declarationName)

/-- The `genaiTools` slice passed to `client.Chats.Create`: populated only
when `len(functionDeclarations) > 0`, otherwise left nil. -/
def mainGenaiTools : Option (List String) :=
  if 0 < mainFunctionDeclarations.length then some mainFunctionDeclarations
  else none

/-!
## Orchestrator lemmas and claim theorems
-/

/-- All content parts of a response, across all candidates whose content is
non-nil, in encounter order. -/
def allParts (resp : Response) : List Part :=
  (resp.candidates.filterMap Candidate.content).flatMap Content.parts

/-- The tool-response parts a list of content parts gives rise to: one per
function-call part, in order. -/
def partsResponses (reg : Registry) (parts : List Part) : List Part :=
  (parts.filterMap Part.functionCall).map (fun c => (dispatchCall reg c).1)

/-- The accumulated text a list of content parts gives rise to. -/
def partsText : List Part → String
  | [] => ""
  | p :: rest =>
    match p.functionCall with
    | some _ => partsText rest
    | none => if p.text ≠ "" then p.text ++ partsText rest else partsText rest

/-- The registered-tool executions a list of content parts gives rise to. -/
def partsExecuted (reg : Registry) (parts : List Part) : List String :=
  (parts.filterMap Part.functionCall).flatMap (fun c => (dispatchCall reg c).2)

theorem foldl_processPart_spec (reg : Registry) (parts : List Part)
    (st : OState) :
    parts.foldl (processPart reg) st =
      { toolResponses := st.toolResponses ++ partsResponses reg parts,
        modelTextResponse := st.modelTextResponse ++ partsText parts,
        executed := st.executed ++ partsExecuted reg parts } := by
  induction parts generalizing st with
  | nil =>
    simp [partsResponses, partsText, partsExecuted, String.append_empty]
  | cons p rest ih =>
    rcases hfc : p.functionCall with _ | call
    · by_cases ht : p.text ≠ ""
      · simp only [List.foldl_cons, processPart, hfc, ht, if_pos, ih,
          partsResponses, partsText, partsExecuted, List.filterMap_cons]
        simp [String.append_assoc, ht]
      · simp only [List.foldl_cons, processPart, hfc, ht, ite_false, ih,
          partsResponses, partsText, partsExecuted, List.filterMap_cons]
    · simp only [List.foldl_cons, processPart, hfc, ih,
        partsResponses, partsText, partsExecuted, List.filterMap_cons]
      simp [List.append_assoc, partsText]

theorem partsResponses_append (reg : Registry) (a b : List Part) :
    partsResponses reg (a ++ b) = partsResponses reg a ++ partsResponses reg b := by
  simp [partsResponses]

theorem partsExecuted_append (reg : Registry) (a b : List Part) :
    partsExecuted reg (a ++ b) = partsExecuted reg a ++ partsExecuted reg b := by
  simp [partsExecuted]

theorem partsText_append (a b : List Part) :
    partsText (a ++ b) = partsText a ++ partsText b := by
  induction a with
  | nil => simp [partsText, String.empty_append]
  | cons p rest ih =>
    rcases hfc : p.functionCall with _ | call
    · by_cases ht : p.text ≠ "" <;>
        simp [partsText, hfc, ht, ih, String.append_assoc]
    · simp [partsText, hfc, ih]

theorem foldl_processCandidate_spec (reg : Registry) (cands : List Candidate)
    (st : OState) :
    cands.foldl (processCandidate reg) st =
      { toolResponses := st.toolResponses ++
          partsResponses reg ((cands.filterMap Candidate.content).flatMap Content.parts),
        modelTextResponse := st.modelTextResponse ++
          partsText ((cands.filterMap Candidate.content).flatMap Content.parts),
        executed := st.executed ++
          partsExecuted reg ((cands.filterMap Candidate.content).flatMap Content.parts) } := by
  induction cands generalizing st with
  | nil => simp [partsResponses, partsText, partsExecuted, String.append_empty]
  | cons cand rest ih =>
    rcases hc : cand.content with _ | c
    · simp only [List.foldl_cons, processCandidate, hc, ih, List.filterMap_cons]
    · simp only [List.foldl_cons, processCandidate, hc, List.filterMap_cons,
        List.flatMap_cons]
      rw [foldl_processPart_spec, ih]
      simp [partsResponses_append, partsText_append, partsExecuted_append,
        List.append_assoc, String.append_assoc]

theorem processResponse_spec (reg : Registry) (resp : Response) :
    processResponse reg resp =
      { toolResponses := partsResponses reg (allParts resp),
        modelTextResponse := partsText (allParts resp),
        executed := partsExecuted reg (allParts resp) } := by
  simpa [processResponse, OState.init, allParts] using
    foldl_processCandidate_spec reg resp.candidates OState.init

/-- C1: a ToolCall whose name is not a key of the tool registry never
invokes any tool's Execute (the execution trace is empty) and produces an
error ToolResult whose message is exactly `unknown tool: <name>`. -/
theorem unknown_tool_yields_error (reg : Registry) (call : FunctionCall)
    (h : lookupTool reg call.name = none) :
    dispatchCall reg call =
      (errorResponsePart call.name ("unknown tool: " ++ call.name), []) := by
  simp [dispatchCall, h]

/-- A registered tool whose execution the orchestrator must never reach on
the unknown-name path. -/
def probeTool : Tool :=
  { declarationName := "run_shell_command",
    execute := fun _ => .ok [("ok", .bool true)] }

theorem unknown_tool_yields_error_witness :
    dispatchCall [("run_shell_command", probeTool)]
        { name := "frobnicate", args := [] } =
      (errorResponsePart "frobnicate" ("unknown tool: " ++ "frobnicate"), []) :=
  unknown_tool_yields_error [("run_shell_command", probeTool)]
    { name := "frobnicate", args := [] } (by rfl)

/-- C2: a model response with at least one function-call part makes the
orchestrator produce exactly one ToolResult per call, in the order the calls
appear, and submit the full batch back to the model in a single
`SendMessage` (no text interleaved). -/
theorem batch_results_per_call (reg : Registry) (resp : Response)
    (h : functionCalls resp ≠ []) :
    stepTurn reg resp =
      .sendBatch ((functionCalls resp).map (fun c => (dispatchCall reg c).1)) := by
  have hcand : ¬resp.candidates.length = 0 := by
    intro hlen
    apply h
    have hnil : resp.candidates = [] := List.length_eq_zero.mp hlen
    simp [functionCalls, hnil]
  have hpr : partsResponses reg (allParts resp) =
      (functionCalls resp).map (fun c => (dispatchCall reg c).1) := rfl
  have hpos : 0 < (partsResponses reg (allParts resp)).length := by
    rw [hpr]
    simpa using List.length_pos.mpr h
  simp [stepTurn, if_neg hcand, processResponse_spec, hpos, hpr, h]

def c2call : FunctionCall := { name := "frob", args := [] }

def c2resp : Response :=
  { candidates := [{ content := some { parts := [Part.ofCall c2call] } }] }

theorem batch_results_per_call_witness :
    stepTurn [] c2resp =
      .sendBatch ((functionCalls c2resp).map (fun c => (dispatchCall [] c).1)) :=
  batch_results_per_call [] c2resp
    (by simp [functionCalls, c2resp, c2call, Part.ofCall])

/-- C8 counterexample: the orchestrator does **not** restrict itself to the
first candidate.  In a response whose first candidate carries only the text
part `A` and whose second candidate carries a call of `t2` plus the text
part `B`, the second candidate contributes both a tool dispatch and
accumulated text: the run yields one tool response (for `t2`) and the text
`AB`, while processing the first candidate alone would yield no tool
response and the text `A`. -/
def c8resp : Response :=
  { candidates :=
      [{ content := some { parts := [Part.ofText "A"] } },
       { content := some { parts :=
           [Part.ofCall { name := "t2", args := [] }, Part.ofText "B"] } }] }

def c8respFirstOnly : Response :=
  { candidates := [{ content := some { parts := [Part.ofText "A"] } }] }

theorem later_candidates_contribute :
    (processResponse [] c8resp).modelTextResponse = "AB" ∧
    (processResponse [] c8resp).toolResponses =
      [errorResponsePart "t2" ("unknown tool: " ++ "t2")] ∧
    (processResponse [] c8respFirstOnly).modelTextResponse = "A" ∧
    (processResponse [] c8respFirstOnly).toolResponses = [] ∧
    ("AB" : String) ≠ "A" :=
  ⟨rfl, rfl, rfl, rfl, by decide⟩

/-- C8 amended: the orchestrator processes the content parts of **every**
candidate (skipping only candidates with nil content), in candidate order:
its tool responses are exactly one per function-call part across all
candidates, in encounter order, and its accumulated text is the
concatenation of all candidates' non-empty text parts. -/
theorem all_candidates_processed (reg : Registry) (resp : Response) :
    (processResponse reg resp).toolResponses =
      (functionCalls resp).map (fun c => (dispatchCall reg c).1) ∧
    (processResponse reg resp).modelTextResponse = partsText (allParts resp) ∧
    (processResponse reg resp).executed = partsExecuted reg (allParts resp) := by
  rw [processResponse_spec]
  exact ⟨rfl, rfl, rfl⟩

theorem wsSignaled_not_exited {w : Nat} (h : wsSignaled w = true) :
    wsExited w = false := by
  simp only [wsSignaled, Bool.and_eq_true, bne_iff_ne, ne_eq] at h
  simp only [wsExited, beq_eq_false_iff_ne, ne_eq]
  exact h.2

theorem wsExited_not_signaled {w : Nat} (h : wsExited w = true) :
    wsSignaled w = false := by
  simp only [wsExited, beq_iff_eq] at h
  simp [wsSignaled, h]

/-- C3: when the operation's context is cancelled before the process exits
(and the process started), Execute reports the cancellation as its sole
outcome — never a success result map — and its systems trace is exactly
start, then `SIGTERM` to the process group via the negated PGID, then the
join on the wait. -/
theorem cancellation_outcome (projectRoot : String) (env : ProcEnv)
    (args : List (String × JVal)) (cmdStr : String)
    (hcmd : lookupStr args "command" = some cmdStr)
    (hstart : env.startErr = none)
    (hcancel : env.raceCancelled = true) :
    (runShellExecute projectRoot env args).1 = .error env.cancelMsg ∧
    (∀ res, (runShellExecute projectRoot env args).1 ≠ .ok res) ∧
    (∀ pgid, env.getpgid = some pgid →
      (runShellExecute projectRoot env args).2 =
        [ProcEvent.startProcess cmdStr (resolvedWorkDir projectRoot args),
         ProcEvent.killGroup (-pgid) SIGTERM,
         ProcEvent.joinWait]) := by
  refine ⟨?_, ?_, ?_⟩
  · simp [runShellExecute, hcmd, hstart, hcancel]
  · intro res
    simp [runShellExecute, hcmd, hstart, hcancel]
  · intro pgid hp
    simp [runShellExecute, hcmd, hstart, hcancel, hp]

/-- A long-running command whose wait loses the race against cancellation. -/
def c3env : ProcEnv :=
  { startErr := none, raceCancelled := true, cancelMsg := "context canceled",
    getpgid := some 777, wait := .otherError "signal: terminated",
    stdout := "", stderr := "" }

theorem cancellation_outcome_witness :
    (runShellExecute "/proj" c3env [("command", .str "sleep 1000")]).1 =
      .error c3env.cancelMsg ∧
    (∀ res, (runShellExecute "/proj" c3env [("command", .str "sleep 1000")]).1 ≠
      .ok res) ∧
    (∀ pgid, c3env.getpgid = some pgid →
      (runShellExecute "/proj" c3env [("command", .str "sleep 1000")]).2 =
        [ProcEvent.startProcess "sleep 1000"
           (resolvedWorkDir "/proj" [("command", .str "sleep 1000")]),
         ProcEvent.killGroup (-pgid) SIGTERM,
         ProcEvent.joinWait]) :=
  cancellation_outcome "/proj" c3env [("command", .str "sleep 1000")]
    "sleep 1000" rfl rfl rfl

/-- C4: on a clean exit (the wait returns no error, i.e. exit status 0) the
success result carries exit code `0`, the signal sentinel `-1`, error text
`(none)`, and the captured stdout/stderr buffers. -/
theorem clean_exit_fields (projectRoot : String) (env : ProcEnv)
    (args : List (String × JVal)) (cmdStr : String)
    (hcmd : lookupStr args "command" = some cmdStr)
    (hstart : env.startErr = none)
    (hrace : env.raceCancelled = false)
    (hwait : env.wait = .ok) :
    ∃ res, (runShellExecute projectRoot env args).1 = .ok res ∧
      lookupJ res "Exit Code" = some (.num 0) ∧
      lookupJ res "Signal" = some (.num (-1)) ∧
      lookupJ res "Error" = some (.str "(none)") ∧
      lookupJ res "Stdout" = some (.str env.stdout) ∧
      lookupJ res "Stderr" = some (.str env.stderr) := by
  refine ⟨[("Command", .str cmdStr),
           ("Directory", .str ((lookupStr args "directory").getD "")),
           ("Stdout", .str env.stdout), ("Stderr", .str env.stderr),
           ("Error", .str "(none)"), ("Exit Code", .num 0),
           ("Signal", .num (-1)), ("Background PIDs", .arr []),
           ("Process Group PGID", .num (env.getpgid.getD (-1)))],
          ?_, ?_, ?_, ?_, ?_, ?_⟩ <;>
    simp [runShellExecute, hcmd, hstart, hrace, hwait, decodeWait, lookupJ]

theorem clean_exit_fields_witness :
    ∃ res, (runShellExecute "/proj" echoHelloEnv
        [("command", .str "echo hello")]).1 = .ok res ∧
      lookupJ res "Exit Code" = some (.num 0) ∧
      lookupJ res "Signal" = some (.num (-1)) ∧
      lookupJ res "Error" = some (.str "(none)") ∧
      lookupJ res "Stdout" = some (.str "hello\n") ∧
      lookupJ res "Stderr" = some (.str "") :=
  clean_exit_fields "/proj" echoHelloEnv [("command", .str "echo hello")]
    "echo hello" rfl rfl rfl rfl

theorem runShellExecute_ok_inversion (projectRoot : String) (env : ProcEnv)
    (args : List (String × JVal)) (res : List (String × JVal))
    (hok : (runShellExecute projectRoot env args).1 = .ok res) :
    ∃ cmdStr, lookupStr args "command" = some cmdStr ∧
      env.startErr = none ∧ env.raceCancelled = false ∧
      res = [("Command", .str cmdStr),
             ("Directory", .str ((lookupStr args "directory").getD "")),
             ("Stdout", .str env.stdout), ("Stderr", .str env.stderr),
             ("Error", .str (decodeWait env.wait).2.2),
             ("Exit Code", .num (decodeWait env.wait).1),
             ("Signal", .num (decodeWait env.wait).2.1),
             ("Background PIDs", .arr []),
             ("Process Group PGID", .num (env.getpgid.getD (-1)))] := by
  rcases hc : lookupStr args "command" with _ | cmdStr
  · simp [runShellExecute, hc] at hok
  · rcases hs : env.startErr with _ | e
    · rcases hr : env.raceCancelled with _ | _
      · refine ⟨cmdStr, rfl, rfl, rfl, ?_⟩
        simp only [runShellExecute, hc, hs, hr, Bool.false_eq_true, if_false,
          Except.ok.injEq] at hok
        exact hok.symm
      · simp [runShellExecute, hc, hs, hr] at hok
    · simp [runShellExecute, hc, hs] at hok

/-- C5: in a success result the exit-code/signal pair is never both
meaningfully present: a non-sentinel `Signal` forces the `Exit Code`
sentinel `-1`, and a normal exit (nil wait error, or an `ExitError` whose
wait status says the process exited) forces the `Signal` sentinel `-1`. -/
theorem exit_signal_mutual_exclusion (projectRoot : String) (env : ProcEnv)
    (args : List (String × JVal)) (res : List (String × JVal))
    (hok : (runShellExecute projectRoot env args).1 = .ok res) :
    (lookupJ res "Signal" ≠ some (.num (-1)) →
      lookupJ res "Exit Code" = some (.num (-1))) ∧
    ((env.wait = .ok ∨ ∃ w, env.wait = .exitError w ∧ wsExited w = true) →
      lookupJ res "Signal" = some (.num (-1))) := by
  obtain ⟨cmdStr, hc, hs, hr, hres⟩ :=
    runShellExecute_ok_inversion projectRoot env args res hok
  subst hres
  constructor
  · intro hsig
    rcases hw : env.wait with _ | w | msg
    · exact absurd (by simp [lookupJ, hw, decodeWait]) hsig
    · rcases hsgn : wsSignaled w with _ | _
      · exact absurd (by simp [lookupJ, hw, decodeWait, hsgn]) hsig
      · simp [lookupJ, hw, decodeWait, hsgn, wsExitStatus,
          wsSignaled_not_exited hsgn]
    · exact absurd (by simp [lookupJ, hw, decodeWait]) hsig
  · rintro (hw | ⟨w, hw, hex⟩)
    · simp [lookupJ, hw, decodeWait]
    · simp [lookupJ, hw, decodeWait, wsExited_not_signaled hex]

/-- A command terminated by `SIGTERM`: the raw wait status is `15`, which
`WaitStatus` decodes as signaled with signal number 15 and no exit code. -/
def c5env : ProcEnv :=
  { startErr := none, raceCancelled := false, cancelMsg := "",
    getpgid := some 888, wait := .exitError 15, stdout := "", stderr := "" }

def c5args : List (String × JVal) := [("command", .str "kill -s TERM $$")]

def c5res : List (String × JVal) :=
  [("Command", .str "kill -s TERM $$"), ("Directory", .str ""),
   ("Stdout", .str ""), ("Stderr", .str ""),
   ("Error", .str "signal: 15"), ("Exit Code", .num (-1)),
   ("Signal", .num 15), ("Background PIDs", .arr []),
   ("Process Group PGID", .num 888)]

theorem exit_signal_mutual_exclusion_witness :
    lookupJ c5res "Exit Code" = some (.num (-1)) :=
  (exit_signal_mutual_exclusion "/proj" c5env c5args c5res rfl).1
    (by simp [c5res, lookupJ])

/-- C6 refutation (code bug): with the optional `directory` argument absent
the success result's `Directory` field is the empty string, not the
`(root)` marker the tool's own declaration documents. -/
def c6env : ProcEnv :=
  { startErr := none, raceCancelled := false, cancelMsg := "",
    getpgid := some 999, wait := .ok, stdout := "hi\n", stderr := "" }

theorem directory_field_empty_when_unset :
    ∃ res, (runShellExecute "/proj" c6env [("command", .str "echo hi")]).1 =
        .ok res ∧
      lookupJ res "Directory" = some (.str "") ∧
      JVal.str "" ≠ JVal.str "(root)" := by
  refine ⟨_, rfl, ?_, ?_⟩
  · rfl
  · simp

theorem expandPaths_ok (projectRoot : String) (fs : FSEnv) (ps : List JVal)
    (h : ∀ p ∈ ps, ∃ s, p = JVal.str s ∧
        (containsGlobMeta s = true →
          ∃ ms, fs.glob (joinPath projectRoot s) = .ok ms)) :
    ∃ l, expandPaths projectRoot fs ps = .ok l := by
  induction ps with
  | nil => exact ⟨[], rfl⟩
  | cons p rest ih =>
    obtain ⟨l, hl⟩ := ih (fun q hq => h q (List.mem_cons_of_mem _ hq))
    obtain ⟨s, rfl, hg⟩ := h p (List.mem_cons_self _ _)
    rcases hm : containsGlobMeta s with _ | _
    · exact ⟨joinPath projectRoot s :: l, by simp [expandPaths, hm, hl, Except.map]⟩
    · obtain ⟨ms, hms⟩ := hg hm
      exact ⟨ms ++ l, by simp [expandPaths, hm, hms, hl, Except.map]⟩

theorem processFiles_ok (fs : FSEnv) (l : List String)
    (hdone : ∀ i, fs.doneAt i = false) :
    ∀ i, ∃ s, processFiles fs l i = .ok s := by
  induction l with
  | nil => exact fun _ => ⟨"", rfl⟩
  | cons fp rest ih =>
    intro i
    obtain ⟨s, hs⟩ := ih (i + 1)
    exact ⟨fileChunk fs fp ++ s, by simp [processFiles, hdone i, hs, Except.map]⟩

/-- C7 counterexample: `paths` present and an array does **not** rule out an
error outcome — a non-string element aborts the whole call with
`invalid path pattern: <v>` even though the context is never cancelled
(`trivialFS.doneAt` is constantly false). -/
def trivialFS : FSEnv :=
  { glob := fun _ => .ok [], stat := fun _ => .notExist,
    readFile := fun _ => .ok "", doneAt := fun _ => false,
    cancelMsg := "context canceled" }

theorem nonstring_path_aborts :
    readManyExecute "/proj" trivialFS [("paths", .arr [.num 42])] =
      .error "invalid path pattern: 42" := rfl

/-- C7 amended: once `paths` is present, is an array, every element is a
string, and every glob-metacharacter pattern expands without a glob error,
Execute never returns an error outcome absent cancellation — every per-file
problem degrades to a marker line inside the single content string. -/
theorem graceful_degradation (projectRoot : String) (fs : FSEnv)
    (args : List (String × JVal)) (ps : List JVal)
    (hp : lookupArr args "paths" = some ps)
    (hstr : ∀ p ∈ ps, ∃ s, p = JVal.str s ∧
        (containsGlobMeta s = true →
          ∃ ms, fs.glob (joinPath projectRoot s) = .ok ms))
    (hdone : ∀ i, fs.doneAt i = false) :
    ∃ content,
      readManyExecute projectRoot fs args = .ok [("content", .str content)] := by
  obtain ⟨l, hl⟩ := expandPaths_ok projectRoot fs ps hstr
  obtain ⟨s, hs⟩ := processFiles_ok fs (dedup l) hdone 0
  exact ⟨s, by simp [readManyExecute, hp, hl, hs]⟩

/-- One existing text file, one missing path, one directory: every problem
degrades to a marker. -/
def mixedFS : FSEnv :=
  { glob := fun _ => .ok [],
    stat := fun p =>
      if p = "/proj/a.txt" then .file
      else if p = "/proj/docs" then .dir
      else .notExist,
    readFile := fun p => if p = "/proj/a.txt" then .ok "alpha\n" else .error "denied",
    doneAt := fun _ => false, cancelMsg := "context canceled" }

def c7args : List (String × JVal) :=
  [("paths", .arr [.str "a.txt", .str "missing.txt", .str "docs"])]

theorem graceful_degradation_witness :
    ∃ content, readManyExecute "/proj" mixedFS c7args =
      .ok [("content", .str content)] :=
  graceful_degradation "/proj" mixedFS c7args
    [.str "a.txt", .str "missing.txt", .str "docs"] rfl
    (by
      intro p hp
      simp only [List.mem_cons, List.not_mem_nil, or_false] at hp
      rcases hp with rfl | rfl | rfl
      · exact ⟨"a.txt", rfl, fun h => absurd h (by decide)⟩
      · exact ⟨"missing.txt", rfl, fun h => absurd h (by decide)⟩
      · exact ⟨"docs", rfl, fun h => absurd h (by decide)⟩)
    (fun _ => rfl)

/-- C9: a regular readable file whose content holds a null byte anywhere —
whatever its name or extension — contributes exactly the
`(Binary File, content not included)` marker line for its path and none of
its content, while a readable file without a null byte contributes its path
marker followed by the full content. -/
theorem binary_null_byte_classification (projectRoot : String) (fs : FSEnv)
    (p data : String)
    (hmeta : containsGlobMeta p = false)
    (hdone : fs.doneAt 0 = false)
    (hstat : fs.stat (joinPath projectRoot p) = .file)
    (hread : fs.readFile (joinPath projectRoot p) = .ok data) :
    (containsNullByte data = true →
      readManyExecute projectRoot fs [("paths", .arr [.str p])] =
        .ok [("content", .str ("---" ++ joinPath projectRoot p ++
          " (Binary File, content not included)---\n"))]) ∧
    (containsNullByte data = false →
      readManyExecute projectRoot fs [("paths", .arr [.str p])] =
        .ok [("content", .str ("---" ++ joinPath projectRoot p ++
          " --- " ++ data ++ "\n"))]) := by
  constructor <;> intro hnull <;>
    simp [readManyExecute, lookupArr, lookupJ, expandPaths, hmeta, dedup,
      dedupAux, processFiles, hdone, fileChunk, hstat, hread, hnull,
      Except.map, String.append_empty, String.append_assoc]

/-- A file whose content starts like a zip archive: a null byte despite the
text-like `.txt` extension. -/
def binData : String := String.mk ['P', 'K', Char.ofNat 0, Char.ofNat 3]

def fs9 : FSEnv :=
  { glob := fun _ => .ok [], stat := fun _ => .file,
    readFile := fun _ => .ok binData, doneAt := fun _ => false,
    cancelMsg := "context canceled" }

theorem binary_null_byte_classification_witness :
    readManyExecute "/proj" fs9 [("paths", .arr [.str "blob.txt"])] =
      .ok [("content", .str ("---" ++ joinPath "/proj" "blob.txt" ++
        " (Binary File, content not included)---\n"))] :=
  (binary_null_byte_classification "/proj" fs9 "blob.txt" binData
    rfl rfl rfl rfl).1 (by decide)

/-- C10: the registry built at startup is empty, no function declarations
are derived from it, the `Tools` config passed to the model client stays
nil, and consequently every possible function call dispatches to the
unknown-tool branch with no tool execution. -/
theorem empty_registry_never_executes :
    mainToolRegistry = [] ∧
    mainFunctionDeclarations = [] ∧
    mainGenaiTools = none ∧
    ∀ call : FunctionCall,
      dispatchCall mainToolRegistry call =
        (errorResponsePart call.name ("unknown tool: " ++ call.name), []) :=
  ⟨rfl, rfl, rfl, fun _ => rfl⟩

end Thoth
